import Mathlib

/-!
Verification of the campus-FAQ chatbot backend core.

This file gives a shallow embedding of the core logic of the repository:
the keyword-based intent detector (`backend/app/core/intent.py`), the
conversation-context data model and session store
(`backend/app/core/context.py`), the FAQ keyword search
(`backend/app/services/faq_service.py` together with
`backend/app/utils/helpers.py`), and the per-message orchestration
pipeline (`backend/app/core/chatbot.py`).

Conventions of the embedding:
* Python strings are Lean `String`s; `str.lower` is modelled per
  character with `Char.toLower` (the texts of the fixed keyword tables
  are ASCII or caseless Devanagari, where the two agree).
* Wall-clock time (`datetime.utcnow()`) is an explicit `Nat` parameter
  threaded through every operation that the source performs at some
  instant; durations (`timedelta`) are `Nat`s in the same unit.
* Python `float` arithmetic on the small confidence scores is modelled
  with exact rationals (`ℚ`).
* Python dicts used as records become structures; dicts used as keyed
  maps become association lists in insertion order (`OrderedDict`
  iteration order is insertion order, which the eviction logic relies
  on).
* Fallible external collaborators (translation, retrieval, LLM, the FAQ
  store's I/O layer) are abstracted as an `Env` of functions returning
  `Except String _`: any of them may raise.
-/

/-! ## String helpers (Python `str.lower` and the `in` substring test) -/

/-- Character-wise lowercase, modelling Python `str.lower()` on the
ASCII/caseless texts this program manipulates. -/
def lowerStr (s : String) : String :=
  String.mk (s.data.map Char.toLower)

/-- `startsWithL needle hay`: `needle` is a leading segment of `hay`. -/
def startsWithL [DecidableEq α] : List α → List α → Bool
  | [], _ => true
  | _ :: _, [] => false
  | a :: as, b :: bs => if a = b then startsWithL as bs else false

/-- `containsSub needle hay`: `needle` occurs contiguously in `hay`
(Python's `needle in hay` on strings, via their character lists). -/
def containsSub [DecidableEq α] (needle : List α) : List α → Bool
  | [] => startsWithL needle []
  | b :: bs => startsWithL needle (b :: bs) || containsSub needle bs

/-- Python `needle in hay` for strings. -/
def strContains (hay needle : String) : Bool :=
  containsSub needle.data hay.data

/-! ## Fixed intent tables (`app/utils/constants.py`, `INTENT_KEYWORDS`),
in the source's insertion order. -/

def greetingKeywords : List String :=
  ["hello", "hi", "hey", "namaste", "good morning", "good afternoon",
   "good evening", "howdy", "greetings", "नमस्ते", "नमस्कार"]

def feeQueryKeywords : List String :=
  ["fee", "fees", "payment", "amount", "cost", "tuition", "charges",
   "price", "pay", "money", "शुल्क", "फीस", "पैसे"]

def admissionKeywords : List String :=
  ["admission", "apply", "application", "eligibility", "seat", "enroll",
   "enrollment", "join", "entry", "प्रवेश", "दाखिला"]

def scholarshipKeywords : List String :=
  ["scholarship", "financial aid", "grant", "stipend", "merit",
   "concession", "discount", "waiver", "छात्रवृत्ति", "स्कॉलरशिप"]

def timetableKeywords : List String :=
  ["timetable", "schedule", "class timing", "lecture", "period",
   "timing", "when", "time", "समय", "समय सारणी"]

def examKeywords : List String :=
  ["exam", "examination", "test", "marks", "result", "grade",
   "score", "passing", "fail", "परीक्षा", "रिजल्ट"]

def documentKeywords : List String :=
  ["document", "certificate", "transcript", "bonafide", "letter",
   "attestation", "verification", "दस्तावेज़", "प्रमाणपत्र"]

def contactKeywords : List String :=
  ["contact", "phone", "email", "address", "office", "location",
   "where", "reach", "संपर्क", "पता"]

def hostelKeywords : List String :=
  ["hostel", "accommodation", "room", "mess", "stay", "living",
   "dormitory", "हॉस्टल", "छात्रावास"]

def libraryKeywords : List String :=
  ["library", "book", "borrow", "return", "reading", "पुस्तकालय", "किताब"]

def goodbyeKeywords : List String :=
  ["bye", "goodbye", "see you", "thank you", "thanks", "धन्यवाद",
   "अलविदा", "good bye"]

/-- `INTENT_KEYWORDS` from `app/utils/constants.py`, insertion order. -/
def INTENT_KEYWORDS : List (String × List String) :=
  [("greeting", greetingKeywords),
   ("fee_query", feeQueryKeywords),
   ("admission", admissionKeywords),
   ("scholarship", scholarshipKeywords),
   ("timetable", timetableKeywords),
   ("exam", examKeywords),
   ("document", documentKeywords),
   ("contact", contactKeywords),
   ("hostel", hostelKeywords),
   ("library", libraryKeywords),
   ("goodbye", goodbyeKeywords)]

/-- `IntentDetector.intent_priority` (`app/core/intent.py`). -/
def INTENT_PRIORITY : List (String × Nat) :=
  [("greeting", 1), ("goodbye", 1), ("fee_query", 2), ("admission", 2),
   ("scholarship", 2), ("timetable", 2), ("exam", 2), ("document", 2),
   ("contact", 2), ("hostel", 2), ("library", 2)]

/-- `self.intent_priority.get(intent, 2)`. -/
def priorityOf (intent : String) : Nat :=
  (INTENT_PRIORITY.lookup intent).getD 2

/-- Python's builtin `min` on two values (first argument on ties). -/
def pyMin (a b : ℚ) : ℚ := if a ≤ b then a else b

/-- Python's builtin `max` on two naturals (second argument on ties,
which is irrelevant for `Nat`). -/
def pyMaxN (a b : Nat) : Nat := if a ≤ b then b else a

/-! ## Intent detection (`IntentDetector.detect_intent`) -/

/-- Result dictionary of `detect_intent`. The `all_matches` key is only
present on the main return path, hence the `Option`. -/
structure IntentResult where
  intent : String
  confidence : ℚ
  matched_keywords : List String
  all_matches : Option (List (String × List String))
deriving DecidableEq, Repr

/-- The inner keyword loop of `detect_intent`: the keywords of one
intent occurring (lowercased, substring) in the lowercased text. -/
def matchesFor (keywords : List String) (text : String) : List String :=
  keywords.filter (fun kw => strContains (lowerStr text) (lowerStr kw))

/-- The intents that matched at least one keyword, with their matches,
in the table's insertion order (the `intent_scores` /
`matched_keywords` dicts of the source). -/
def intentMatches (text : String) : List (String × List String) :=
  INTENT_KEYWORDS.filterMap (fun p =>
    let ms := matchesFor p.2 text
    if ms.isEmpty then none else some (p.1, ms))

/-- `score = len(matches) * (1 / priority)`. -/
def scoreOf (p : String × List String) : ℚ :=
  (p.2.length : ℚ) * (1 / (priorityOf p.1 : ℚ))

/-- Python `max(xs, key=f)` over a nonempty list: the first element
attaining the maximum. -/
def firstMaxBy (f : α → ℚ) (x : α) (xs : List α) : α :=
  xs.foldl (fun b y => if f b < f y then y else b) x

/-- `IntentDetector.detect_intent` (`app/core/intent.py`). -/
def detect_intent (text : String) : IntentResult :=
  if text = "" then ⟨"general", 0, [], none⟩
  else
    match intentMatches text with
    | [] => ⟨"general", 1/2, [], none⟩
    | s :: rest =>
      let best := firstMaxBy scoreOf s rest
      let max_score := scoreOf best
      let max_keywords := ((INTENT_KEYWORDS.lookup best.1).getD []).length
      let confidence := pyMin (max_score / ((pyMaxN max_keywords 1 : Nat) : ℚ)) 1
      ⟨best.1, confidence, best.2, some (intentMatches text)⟩

/-- The fixed "needs human" phrase list of
`IntentDetector.needs_human_fallback`. -/
def human_required_keywords : List String :=
  ["speak to someone", "talk to human", "real person",
   "manager", "supervisor", "complaint", "urgent",
   "emergency", "help me please", "not working"]

/-- `IntentDetector.needs_human_fallback` (`app/core/intent.py`). -/
def needs_human_fallback (text : String) (confidence : ℚ) : Bool :=
  human_required_keywords.any (fun kw => strContains (lowerStr text) kw)
    || confidence < 3/10

/-! ## Suggested questions (`SUGGESTED_QUESTIONS`,
`IntentDetector.get_suggested_questions`) -/

def sqAdmission : List String :=
  ["What are the eligibility criteria?",
   "What documents are required?",
   "What is the application deadline?"]

def sqFees : List String :=
  ["What is the semester fee?",
   "What payment methods are accepted?",
   "Is there any late fee penalty?"]

def sqScholarship : List String :=
  ["Who is eligible for scholarship?",
   "How to apply for scholarship?",
   "What is the scholarship amount?"]

def sqExam : List String :=
  ["When are the exams scheduled?",
   "What is the passing criteria?",
   "How can I check my results?"]

def sqGeneral : List String :=
  ["What are the admission requirements?",
   "What is the fee structure?",
   "Are there any scholarships available?"]

/-- `SUGGESTED_QUESTIONS` from `app/utils/constants.py`. -/
def SUGGESTED_QUESTIONS : List (String × List String) :=
  [("admission", sqAdmission), ("fees", sqFees),
   ("scholarship", sqScholarship), ("exam", sqExam),
   ("general", sqGeneral)]

/-- `intent_category_map` inside `get_suggested_questions`; the
`goodbye` entry maps to Python `None`. -/
def intent_category_map : List (String × Option String) :=
  [("fee_query", some "fees"), ("admission", some "admission"),
   ("scholarship", some "scholarship"), ("exam", some "exam"),
   ("greeting", some "general"), ("goodbye", none)]

/-- `IntentDetector.get_suggested_questions` (`app/core/intent.py`). -/
def get_suggested_questions (intent : String) : List String :=
  let category := (intent_category_map.lookup intent).getD (some "general")
  match category with
  | none => []
  | some c => (SUGGESTED_QUESTIONS.lookup c).getD sqGeneral

/-! ## Keyword extraction (`app/utils/helpers.py`, `extract_keywords`) -/

/-- A character kept by `re.sub(r'[^\w\s]', '', ...)`: word characters.
ASCII word characters are alphanumerics and the underscore; the
non-ASCII text this program handles (Devanagari and other Indic
letters) is also `\w` in Python's Unicode mode. -/
def isWordChar (c : Char) : Bool :=
  c.isAlphanum || c = '_' || c.toNat ≥ 128

/-- The stopword set of `extract_keywords`. -/
def stop_words : List String :=
  ["the", "a", "an", "is", "are", "was", "were", "be", "been",
   "being", "have", "has", "had", "do", "does", "did", "will",
   "would", "could", "should", "may", "might", "can", "to", "of",
   "in", "for", "on", "with", "at", "by", "from", "as", "into",
   "about", "like", "through", "after", "over", "between", "out",
   "against", "during", "without", "before", "under", "around",
   "among", "and", "or", "but", "if", "then", "else", "when",
   "up", "down", "that", "this", "these", "those", "what", "which",
   "who", "whom", "whose", "where", "why", "how", "all", "each",
   "every", "both", "few", "more", "most", "other", "some", "such",
   "no", "nor", "not", "only", "own", "same", "so", "than", "too",
   "very", "just", "also", "now", "here", "there", "my", "your",
   "his", "her", "its", "our", "their", "me", "you", "him", "us",
   "them", "i", "we", "he", "she", "it", "they"]

/-- Python `str.split()` with no separator: split on whitespace runs,
discarding empty pieces. `cur` holds the characters of the word being
read, in reverse. -/
def wordsAux (cur : List Char) : List Char → List String
  | [] => if cur.isEmpty then [] else [String.mk cur.reverse]
  | c :: cs =>
    if c.isWhitespace then
      if cur.isEmpty then wordsAux [] cs
      else String.mk cur.reverse :: wordsAux [] cs
    else wordsAux (c :: cur) cs

/-- Python `text.split()`. -/
def splitWhitespace (s : String) : List String := wordsAux [] s.data

/-- Order-preserving de-duplication (the `seen` set loop at the end of
`extract_keywords`). -/
def dedupSeen (seen : List String) : List String → List String
  | [] => []
  | w :: ws =>
    if seen.contains w then dedupSeen seen ws
    else w :: dedupSeen (w :: seen) ws

/-- `extract_keywords(text, min_length)` from `app/utils/helpers.py`:
lowercase, strip non-word non-space characters, split on whitespace,
keep words of length at least `min_length` that are not stopwords, and
de-duplicate preserving order. -/
def extract_keywords (text : String) (min_length : Nat) : List String :=
  let cleaned := String.mk ((lowerStr text).data.filter
    (fun c => isWordChar c || c.isWhitespace))
  let words := splitWhitespace cleaned
  let kept := words.filter
    (fun w => min_length ≤ w.length && ¬(stop_words.contains w))
  dedupSeen [] kept

/-! ## FAQ search (`app/services/faq_service.py`, `FAQService.search_faqs`) -/

/-- One stored FAQ, with the fields `search_faqs` reads. `category` is
`Option` because the source accesses it with `dict.get` defaults. -/
structure FAQ where
  question : String
  answer : String
  category : Option String
  keywords : List String
  priority : ℚ
deriving DecidableEq, Repr

/-- One entry of the `scored_faqs` list built by `search_faqs`. -/
structure ScoredFAQ where
  question : String
  answer : String
  category : String
  score : ℚ
  matched_keywords : List String
deriving DecidableEq, Repr

/-- The `{"matches": ..., "total": ...}` result of `search_faqs`. -/
structure FAQSearchResult where
  «matches» : List ScoredFAQ
  total : Nat
deriving DecidableEq, Repr

/-- The category filter (`continue` branch) of `search_faqs`: an absent
or empty `category` argument is falsy and filters nothing. -/
def categoryMatches (category : Option String) (faq : FAQ) : Bool :=
  match category with
  | none => true
  | some c =>
    if c = "" then true
    else lowerStr (faq.category.getD "") = lowerStr c

/-- `all_faq_keywords`: the FAQ's declared keywords (lowercased) united
with keywords extracted from its question text. Duplicates are harmless
because it is only used for membership tests. -/
def combinedKeywords (faq : FAQ) : List String :=
  faq.keywords.map lowerStr ++ extract_keywords (lowerStr faq.question) 3

/-- `matches = query_keywords.intersection(all_faq_keywords)`, as the
sublist of the (de-duplicated) query keywords occurring in the FAQ's
combined keyword set. -/
def interKeywords (qk : List String) (faq : FAQ) : List String :=
  qk.filter (fun k => decide (k ∈ combinedKeywords faq))

/-- The body of the scoring loop of `search_faqs` for one FAQ: `none`
when the keyword intersection is empty (the FAQ is skipped), otherwise
the scored entry. -/
def scoreFAQ (qk : List String) (faq : FAQ) : Option ScoredFAQ :=
  let ms := interKeywords qk faq
  if ms.isEmpty then none
  else
    let score := (ms.length : ℚ) / ((pyMaxN qk.length 1 : Nat) : ℚ)
    let priority_boost := faq.priority * (1/10)
    let final_score := pyMin (score + priority_boost) 1
    some ⟨faq.question, faq.answer, faq.category.getD "general", final_score, ms⟩

/-- Stable insert for a descending sort by `key` (an element is placed
before the first existing element whose key is not larger). -/
def insertDesc (key : α → ℚ) (x : α) : List α → List α
  | [] => [x]
  | y :: ys => if key y ≤ key x then x :: y :: ys else y :: insertDesc key x ys

/-- Stable descending sort by `key`, modelling Python's stable
`list.sort(key=..., reverse=True)` extensionally. -/
def sortDesc (key : α → ℚ) : List α → List α
  | [] => []
  | x :: xs => insertDesc key x (sortDesc key xs)

/-- The query keyword set: `set(extract_keywords(query.lower()))`. -/
def queryKeywordsOf (query : String) : List String :=
  extract_keywords (lowerStr query) 3

/-- The candidate FAQs surviving the category filter. -/
def candidatesOf (faqs : List FAQ) (category : Option String) : List FAQ :=
  faqs.filter (categoryMatches category)

/-- The unsorted `scored_faqs` list, in FAQ discovery order. -/
def scoredOf (faqs : List FAQ) (query : String) (category : Option String) :
    List ScoredFAQ :=
  (candidatesOf faqs category).filterMap (scoreFAQ (queryKeywordsOf query))

/-- `FAQService.search_faqs` (`app/services/faq_service.py`), with the
FAQ list for the requested language (the I/O of `_get_faqs`) passed in
explicitly. -/
def search_faqs (faqs : List FAQ) (query : String) (category : Option String)
    (limit : Nat) : FAQSearchResult :=
  if faqs.isEmpty then ⟨[], 0⟩
  else
    let sorted := sortDesc ScoredFAQ.score (scoredOf faqs query category)
    ⟨sorted.take limit, sorted.length⟩

/-! ## Conversation context (`app/core/context.py`, `ConversationContext`)

The store is generic in the session-id type (Python dict keys are
generic); the repository instantiates it with strings. -/

/-- `LanguageEnum` (`app/models/schemas.py`): the six supported
languages. -/
inductive LanguageEnum
  | en | hi | ta | te | bn | mr
deriving DecidableEq, Repr

/-- `LanguageEnum.value`. -/
def langCode : LanguageEnum → String
  | .en => "en" | .hi => "hi" | .ta => "ta"
  | .te => "te" | .bn => "bn" | .mr => "mr"

/-- `LanguageEnum(code)`: `none` models the `ValueError` case. -/
def parseLang (code : String) : Option LanguageEnum :=
  if code = "en" then some .en
  else if code = "hi" then some .hi
  else if code = "ta" then some .ta
  else if code = "te" then some .te
  else if code = "bn" then some .bn
  else if code = "mr" then some .mr
  else none

/-- The metadata dict of a stored message; `add_assistant_message`
populates `sources` (when truthy) and `confidence` (when not `None`),
all other paths leave it empty. -/
structure MsgMetadata where
  sources : List String
  confidence : Option ℚ
deriving DecidableEq, Repr

/-- One entry of `ConversationContext.messages`. -/
structure Msg where
  role : String
  content : String
  language : String
  timestamp : Nat
  metadata : MsgMetadata
deriving DecidableEq, Repr

/-- `ConversationContext` (`app/core/context.py`), with session ids of
type `κ`. -/
structure ConversationContext (κ : Type) where
  session_id : κ
  language : LanguageEnum
  messages : List Msg
  max_messages : Nat
  created_at : Nat
  updated_at : Nat
  entities : List (String × String)
  intent_history : List String
deriving DecidableEq, Repr

/-- `ConversationContext.__init__`, performed at time `now` (the two
`utcnow()` calls coincide in this model). -/
def newContext (session_id : κ) (language : LanguageEnum)
    (max_messages : Nat) (now : Nat) : ConversationContext κ :=
  ⟨session_id, language, [], max_messages, now, now, [], []⟩

/-- Python `xs[-n:]`: for `n = 0` this is the whole list, not the empty
list. -/
def pyLastSlice (xs : List α) (n : Nat) : List α :=
  if n = 0 then xs else xs.drop (xs.length - n)

namespace ConversationContext

/-- `ConversationContext.add_message`, performed at time `now`. -/
def add_message (ctx : ConversationContext κ) (role content : String)
    (language : Option String) (metadata : Option MsgMetadata) (now : Nat) :
    ConversationContext κ :=
  let msg : Msg :=
    ⟨role, content, language.getD (langCode ctx.language), now,
     metadata.getD ⟨[], none⟩⟩
  let msgs := ctx.messages ++ [msg]
  let msgs2 := if msgs.length > ctx.max_messages
    then pyLastSlice msgs ctx.max_messages else msgs
  { ctx with messages := msgs2, updated_at := now }

/-- `ConversationContext.add_user_message`. -/
def add_user_message (ctx : ConversationContext κ) (content : String)
    (language : Option String) (now : Nat) : ConversationContext κ :=
  ctx.add_message "user" content language none now

/-- `ConversationContext.add_assistant_message`; an absent or empty
`sources` list is falsy, so the metadata keeps no sources. -/
def add_assistant_message (ctx : ConversationContext κ) (content : String)
    (language : Option String) (sources : Option (List String))
    (confidence : Option ℚ) (now : Nat) : ConversationContext κ :=
  let metadata : MsgMetadata :=
    ⟨match sources with
      | some l => if l.isEmpty then [] else l
      | none => [], confidence⟩
  ctx.add_message "assistant" content language (some metadata) now

/-- `dict.update` for the entities dict: existing keys are overwritten
in place, new keys appended in order (later duplicates in
`new_entities` win, as in a sequential dict update). -/
def dictUpdate (d new_entities : List (String × String)) :
    List (String × String) :=
  d.map (fun p =>
      match new_entities.reverse.lookup p.1 with
      | some v => (p.1, v)
      | none => p)
    ++ new_entities.filter (fun p => (d.lookup p.1).isNone)

/-- `ConversationContext.update_entities`, performed at time `now`. -/
def update_entities (ctx : ConversationContext κ)
    (new_entities : List (String × String)) (now : Nat) :
    ConversationContext κ :=
  { ctx with entities := dictUpdate ctx.entities new_entities,
             updated_at := now }

/-- `ConversationContext.add_intent`, performed at time `now`. The
source does not read the clock here: `updated_at` is left untouched,
so `now` is unused. -/
def add_intent (ctx : ConversationContext κ) (intent : String)
    (_now : Nat) : ConversationContext κ :=
  let hist := ctx.intent_history ++ [intent]
  { ctx with intent_history :=
      if hist.length > 5 then pyLastSlice hist 5 else hist }

/-- `ConversationContext.get_history`. -/
def get_history (ctx : ConversationContext κ) (limit : Nat) : List Msg :=
  pyLastSlice ctx.messages limit

end ConversationContext

/-- Python `str.capitalize()`: first character uppercased, the rest
lowercased. -/
def capitalizeStr (s : String) : String :=
  match s.data with
  | [] => ""
  | c :: cs => String.mk (c.toUpper :: cs.map Char.toLower)

/-- `ConversationContext.get_history_as_text`. -/
def get_history_as_text (ctx : ConversationContext κ) (limit : Nat) : String :=
  let history := ctx.get_history limit
  if history.isEmpty then ""
  else String.intercalate "\n"
    (history.map (fun m => capitalizeStr m.role ++ ": " ++ m.content))

/-! ## Session store (`app/core/context.py`, `ContextManager`) -/

/-- `ContextManager`: the `OrderedDict` of sessions as an association
list in insertion/recency order, plus the two eviction parameters. -/
structure ContextManager (κ : Type) where
  sessions : List (κ × ConversationContext κ)
  max_sessions : Nat
  session_timeout : Nat
deriving DecidableEq, Repr

/-- Key lookup in the ordered session map. -/
def lookupCtx [DecidableEq κ] : List (κ × β) → κ → Option β
  | [], _ => none
  | p :: ps, k => if p.1 = k then some p.2 else lookupCtx ps k

/-- `OrderedDict.move_to_end`: the entry of `k` is moved to the back,
everything else keeps its order. -/
def moveToEnd [DecidableEq κ] (l : List (κ × β)) (k : κ) : List (κ × β) :=
  match lookupCtx l k with
  | some v => l.filter (fun p => ¬(p.1 = k)) ++ [(k, v)]
  | none => l

/-- The `while len > max` loop of `_cleanup_old_sessions`: repeatedly
drop the oldest (front) entry until the count is within the ceiling. -/
def evictOver : List α → Nat → List α
  | [], _ => []
  | x :: xs, maxN =>
    if xs.length + 1 > maxN then evictOver xs maxN else x :: xs

/-- `ContextManager._cleanup_old_sessions`, run at time `now`: drop
every session idle for strictly longer than the timeout, then drop
oldest sessions while over the ceiling. -/
def cleanup_old_sessions (m : ContextManager κ) (now : Nat) :
    ContextManager κ :=
  let kept := m.sessions.filter
    (fun p => ¬(now - p.2.updated_at > m.session_timeout))
  { m with sessions := evictOver kept m.max_sessions }

/-- `ContextManager.get_or_create_session`, run at time `now`. -/
def get_or_create_session [DecidableEq κ] (m : ContextManager κ) (session_id : κ)
    (language : LanguageEnum) (now : Nat) :
    ConversationContext κ × ContextManager κ :=
  match lookupCtx m.sessions session_id with
  | some ctx => (ctx, { m with sessions := moveToEnd m.sessions session_id })
  | none =>
    let ctx := newContext session_id language 10 now
    let m1 : ContextManager κ :=
      { m with sessions := m.sessions ++ [(session_id, ctx)] }
    (ctx, cleanup_old_sessions m1 now)

/-- `ContextManager.get_session`. -/
def get_session [DecidableEq κ] (m : ContextManager κ) (session_id : κ) :
    Option (ConversationContext κ) :=
  lookupCtx m.sessions session_id

/-- `ContextManager.get_session_count`. -/
def get_session_count (m : ContextManager κ) : Nat :=
  m.sessions.length

/-- A fresh store with the given ceiling and timeout
(`ContextManager.__init__`). -/
def emptyManager (max_sessions session_timeout : Nat) : ContextManager κ :=
  ⟨[], max_sessions, session_timeout⟩

/-- A sequence of `get_or_create_session` calls at a fixed time. -/
def runCreates [DecidableEq κ] (m : ContextManager κ) (ids : List κ)
    (language : LanguageEnum) (now : Nat) : ContextManager κ :=
  ids.foldl (fun acc sid => (get_or_create_session acc sid language now).2) m

/-- `ContextManager.get_context_prompt`. -/
def get_context_prompt [DecidableEq κ] (m : ContextManager κ) (session_id : κ)
    (current_query : String) : String :=
  match get_session m session_id with
  | none => current_query
  | some ctx =>
    if ctx.messages.isEmpty then current_query
    else
      let history_text := get_history_as_text ctx 3
      if history_text = "" then current_query
      else "Previous conversation:\n" ++ history_text ++
        "\n\nCurrent question: " ++ current_query ++
        "\n\nPlease consider the conversation context when answering."

/-! ## Language table (`app/utils/constants.py`, `LANGUAGES`), the
entries the pipeline reads. -/

/-- The per-language strings of one `LANGUAGES` entry used by the
pipeline. -/
structure LangInfo where
  greeting : String
  fallback : String
  error : String
deriving DecidableEq, Repr

def langInfoEn : LangInfo :=
  ⟨"Hello! How can I help you today?",
   "I'm sorry, I couldn't understand that. Could you please rephrase?",
   "Something went wrong. Please try again."⟩

def langInfoHi : LangInfo :=
  ⟨"नमस्ते! आज मैं आपकी कैसे मदद कर सकता हूं?",
   "मुझे खेद है, मैं यह समझ नहीं पाया। कृपया दोबारा कहें।",
   "कुछ गलत हो गया। कृपया पुनः प्रयास करें।"⟩

def langInfoTa : LangInfo :=
  ⟨"வணக்கம்! இன்று நான் உங்களுக்கு எப்படி உதவ முடியும்?",
   "மன்னிக்கவும், என்னால் புரிந்துகொள்ள முடியவில்லை. தயவுசெய்து மீண்டும் கூறுங்கள்.",
   "ஏதோ தவறு ஏற்பட்டது. மீண்டும் முயற்சிக்கவும்."⟩

def langInfoTe : LangInfo :=
  ⟨"నమస్కారం! ఈరోజు నేను మీకు ఎలా సహాయం చేయగలను?",
   "క్షమించండి, నేను అర్థం చేసుకోలేకపోయాను. దయచేసి మళ్ళీ చెప్పండి.",
   "ఏదో తప్పు జరిగింది. దయచేసి మళ్ళీ ప్రయత్నించండి."⟩

def langInfoBn : LangInfo :=
  ⟨"নমস্কার! আজ আমি আপনাকে কীভাবে সাহায্য করতে পারি?",
   "দুঃখিত, আমি বুঝতে পারলাম না। অনুগ্রহ করে আবার বলুন।",
   "কিছু ভুল হয়েছে। অনুগ্রহ করে আবার চেষ্টা করুন।"⟩

def langInfoMr : LangInfo :=
  ⟨"नमस्कार! आज मी तुम्हाला कशी मदत करू शकतो?",
   "क्षमा करा, मला समजले नाही. कृपया पुन्हा सांगा.",
   "काहीतरी चूक झाली. कृपया पुन्हा प्रयत्न करा."⟩

/-- `LANGUAGES` keyed by language code, insertion order. -/
def LANGUAGES : List (String × LangInfo) :=
  [("en", langInfoEn), ("hi", langInfoHi), ("ta", langInfoTa),
   ("te", langInfoTe), ("bn", langInfoBn), ("mr", langInfoMr)]

/-- `LANGUAGES[code]` as a partial lookup (`none` models `KeyError`). -/
def langInfo (code : String) : Option LangInfo :=
  LANGUAGES.lookup code

/-- `LANGUAGES.get(request.language.value, LANGUAGES["en"])["error"]`:
total, since enum values are always present in the table. -/
def errorTextFor (l : LanguageEnum) : String :=
  ((LANGUAGES.lookup (langCode l)).getD langInfoEn).error

/-- The `goodbye_messages` dict hardcoded in
`ChatbotService.process_message`. -/
def goodbye_messages : List (String × String) :=
  [("en", "Goodbye! Feel free to ask if you have more questions."),
   ("hi", "अलविदा! अगर आपके और सवाल हों तो पूछें।"),
   ("ta", "போய் வருகிறேன்! உங்களுக்கு மேலும் கேள்விகள் இருந்தால் கேளுங்கள்."),
   ("te", "వీడ్కోలు! మీకు మరిన్ని ప్రశ్నలు ఉంటే అడగండి."),
   ("bn", "বিদায়! আপনার আরও প্রশ্ন থাকলে জিজ্ঞাসা করুন।"),
   ("mr", "निरोप! तुमच्या आणखी प्रश्न असल्यास विचारा.")]

/-- `intent_to_category` in `ChatbotService._search_faqs`. -/
def intent_to_category : List (String × String) :=
  [("fee_query", "fees"), ("admission", "admission"),
   ("scholarship", "scholarship"), ("exam", "exam"),
   ("timetable", "timetable"), ("document", "documents"),
   ("contact", "contact"), ("hostel", "hostel")]

/-! ## The message pipeline (`app/core/chatbot.py`,
`ChatbotService.process_message`) -/

/-- Result of `TranslationService.detect_language`. -/
structure DetectResult where
  success : Bool
  language : String
  confidence : ℚ

/-- Result of `RAGService.generate_answer` as the pipeline reads it:
`answer` may be missing, `confidence` defaults to 0, `sources` to []. -/
structure RagResult where
  answer : Option String
  confidence : ℚ
  sources : List String

/-- Result of `OllamaService.generate_response` as the pipeline reads
it. -/
structure LlmResult where
  success : Bool
  response : String

/-- The answer `_search_faqs` builds from the best FAQ match. -/
structure FaqAnswer where
  answer : String
  question : String
  category : String
  confidence : ℚ

/-- The external collaborators of the pipeline (translation, retrieval,
LLM, the FAQ store's I/O, uuid generation), every call of which may
raise. Entity extraction (`IntentDetector.extract_entities`) is
regex-driven pure code included here as an abstract pure function: no
claim depends on the extracted values, only on the fact that they are
merged into the context. -/
structure Env where
  freshId : String
  detect_language : String → Except String DetectResult
  translate_to_english : String → String → Except String (String × String)
  translate_from_english : String → String → Except String String
  rag_generate_answer : String → Except String RagResult
  llm_generate_response : String → String → Except String LlmResult
  faq_search : String → Option String → Except String FAQSearchResult
  extract_entities : String → List (String × String)

/-- `ChatRequest` (`app/models/schemas.py`), the fields the pipeline
reads. -/
structure ChatRequest where
  message : String
  language : LanguageEnum
  session_id : Option String
deriving DecidableEq, Repr

/-- `ChatResponse` (`app/models/schemas.py`), the fields the pipeline
writes. -/
structure ChatResponse where
  response : String
  language : LanguageEnum
  session_id : String
  confidence_score : ℚ
  sources : Option (List String)
  suggested_questions : Option (List String)
  fallback_required : Bool
  intent : String
deriving DecidableEq, Repr

/-- The pipeline monad: Python exceptions over the mutable session
store. On an exception the store keeps all mutations already made
(`ExceptT` over `StateM`, not the other way around). -/
abbrev PipeM := ExceptT String (StateM (ContextManager String))

/-- Await a fallible external call. -/
def liftE (x : Except String α) : PipeM α :=
  match x with
  | .ok a => pure a
  | .error e => throw e

/-- In-place mutation of the conversation object held by the store
(Python mutates the object returned by `get_or_create_session`, which
is aliased inside the store's dict). -/
def updateSession (session_id : String)
    (f : ConversationContext String → ConversationContext String) :
    PipeM Unit :=
  modify (fun m =>
    { m with sessions :=
        m.sessions.map (fun p => if p.1 = session_id then (p.1, f p.2) else p) })

/-- `ChatbotService._search_faqs`: category from the intent map, FAQ
search, first match — any exception is caught and yields `None`. -/
def search_faqs_step (env : Env) (query intent : String) : Option FaqAnswer :=
  match env.faq_search query (intent_to_category.lookup intent) with
  | .error _ => none
  | .ok r =>
    match r.«matches» with
    | [] => none
    | best :: _ => some ⟨best.answer, best.question, best.category, best.score⟩

/-- `SYSTEM_PROMPTS["default"]` (`app/utils/constants.py`), passed to
the LLM fallback. -/
def SYSTEM_PROMPT_default : String :=
  "You are a helpful campus assistant chatbot for a college/university. \n" ++
  "Your job is to answer student queries about admissions, fees, scholarships, timetables, \n" ++
  "exams, documents, and other campus-related topics.\n\n" ++
  "Guidelines:\n" ++
  "1. Be friendly, concise, and helpful\n" ++
  "2. If you're not sure about something, say so clearly\n" ++
  "3. Provide accurate information based on the context given\n" ++
  "4. If the question is outside your knowledge, suggest contacting the relevant office\n" ++
  "5. Keep responses under 200 words unless more detail is needed\n" ++
  "6. Use bullet points for lists when appropriate"

/-- Steps 7–8 of the pipeline: the retrieval fallback and the LLM
fallback, producing `(response_text, confidence, sources)`. -/
def ragAndLlm (env : Env) (session_id english_message detected_lang : String) :
    PipeM (String × ℚ × Option (List String)) := do
  let r ← liftE (env.rag_generate_answer english_message)
  if (r.answer.getD "") ≠ "" ∧ r.confidence > 2/5 then
    pure (r.answer.getD "", r.confidence, some r.sources)
  else
    let m ← get
    let context_prompt := get_context_prompt m session_id english_message
    let lr ← liftE (env.llm_generate_response context_prompt SYSTEM_PROMPT_default)
    if lr.success then
      pure (lr.response, 3/5, none)
    else
      match langInfo detected_lang with
      | some info => pure (info.fallback, 0, none)
      | none => throw "KeyError"

/-- Translate each of the first three suggested questions. -/
def translateAll (env : Env) (detected_lang : String) :
    List String → PipeM (List String)
  | [] => pure []
  | q :: qs => do
    let t ← liftE (env.translate_from_english q detected_lang)
    let ts ← translateAll env detected_lang qs
    pure (t :: ts)

/-- The body of the `try:` block of `ChatbotService.process_message`
(everything after session resolution), performed at time `now`. -/
def processInner (env : Env) (req : ChatRequest) (session_id : String)
    (now : Nat) : PipeM ChatResponse := do
  let d ← liftE (env.detect_language req.message)
  let detected_lang :=
    if d.success ∧ d.confidence > 7/10 then d.language
    else langCode req.language
  let (english_message, _source_lang) ←
    liftE (env.translate_to_english req.message detected_lang)
  let intent := (detect_intent english_message).intent
  let entities := env.extract_entities english_message
  updateSession session_id (fun c => c.update_entities entities now)
  updateSession session_id (fun c => c.add_intent intent now)
  updateSession session_id
    (fun c => c.add_user_message req.message (some detected_lang) now)
  let (response_text, confidence, sources) ←
    if intent = "greeting" then
      match langInfo detected_lang with
      | some info => pure (info.greeting, (1 : ℚ), (none : Option (List String)))
      | none => throw "KeyError"
    else if intent = "goodbye" then
      pure ((goodbye_messages.lookup detected_lang).getD
        "Goodbye! Feel free to ask if you have more questions.", 1, none)
    else
      match search_faqs_step env english_message intent with
      | some f =>
        if f.confidence > 7/10 then
          pure (f.answer, f.confidence, some ["FAQ Database"])
        else ragAndLlm env session_id english_message detected_lang
      | none => ragAndLlm env session_id english_message detected_lang
  let response_text2 ←
    if ¬(detected_lang = "en") ∧ ¬(response_text = "") then
      liftE (env.translate_from_english response_text detected_lang)
    else pure response_text
  let fallback_required := needs_human_fallback req.message confidence
  let suggested := get_suggested_questions intent
  let suggested2 ←
    if ¬(detected_lang = "en") ∧ ¬(suggested = []) then
      translateAll env detected_lang (suggested.take 3)
    else pure suggested
  updateSession session_id (fun c =>
    c.add_assistant_message response_text2 (some detected_lang)
      sources (some confidence) now)
  match parseLang detected_lang with
  | some l =>
    pure ⟨response_text2, l, session_id, confidence, sources,
      some suggested2, fallback_required, intent⟩
  | none => throw "ValueError"

/-- `request.session_id or generate_session_id()`. -/
def resolvedSessionId (env : Env) (req : ChatRequest) : String :=
  match req.session_id with
  | some s => if s = "" then env.freshId else s
  | none => env.freshId

/-- The store right after session resolution (the
`get_or_create_session` call preceding the `try:` block). -/
def afterSessionResolution (env : Env) (req : ChatRequest)
    (m : ContextManager String) (now : Nat) : ContextManager String :=
  (get_or_create_session m (resolvedSessionId env req) req.language now).2

/-- `ChatbotService.process_message`: session resolution, then the
guarded pipeline; any exception inside it is converted into the canned
per-language error response. Returns the response together with the
final session store. -/
def process_message (env : Env) (req : ChatRequest)
    (m : ContextManager String) (now : Nat) :
    ChatResponse × ContextManager String :=
  let session_id := resolvedSessionId env req
  let m1 := afterSessionResolution env req m now
  match (processInner env req session_id now).run.run m1 with
  | (.ok resp, m2) => (resp, m2)
  | (.error _, m2) =>
    (⟨errorTextFor req.language, req.language, session_id, 0, none, none,
      true, "error"⟩, m2)

/-! # Claims -/

/-- C10: for the empty input string, `detect_intent` returns intent
`"general"` with confidence 0.0 and an empty matched-keywords list — an
edge case distinct from the no-keyword-matched default of 0.5. -/
theorem detect_intent_empty_input :
    detect_intent "" = ⟨"general", 0, [], none⟩ := rfl

/-- C2 (counterexample): `add_intent` does not set `updated_at` to the
mutation time — a context last updated at time 0 still has
`updated_at = 0` after an `add_intent` performed at time 7. -/
theorem add_intent_updated_at_cex :
    ¬((((newContext "s" LanguageEnum.en 10 0)).add_intent "fee_query" 7).updated_at
      = 7) := by decide

/-- C2 (amended): `add_user_message`, `add_assistant_message` and
`update_entities` each set `updated_at` to the mutation time, for every
context and argument value; `add_intent` leaves `updated_at` unchanged. -/
theorem context_mutations_refresh_updated_at :
    (∀ (ctx : ConversationContext String) (content : String)
        (language : Option String) (now : Nat),
      (ctx.add_user_message content language now).updated_at = now) ∧
    (∀ (ctx : ConversationContext String) (content : String)
        (language : Option String) (sources : Option (List String))
        (confidence : Option ℚ) (now : Nat),
      (ctx.add_assistant_message content language sources confidence now).updated_at
        = now) ∧
    (∀ (ctx : ConversationContext String)
        (new_entities : List (String × String)) (now : Nat),
      (ctx.update_entities new_entities now).updated_at = now) ∧
    (∀ (ctx : ConversationContext String) (intent : String) (now : Nat),
      (ctx.add_intent intent now).updated_at = ctx.updated_at) :=
  ⟨fun _ _ _ _ => rfl, fun _ _ _ _ _ _ => rfl, fun _ _ _ => rfl,
   fun _ _ _ => rfl⟩

/-- C7: `needs_human_fallback` returns true iff the text contains one
of the fixed "needs human" phrases as a case-insensitive substring or
the confidence is strictly below 0.3; in particular any message
containing "speak to someone" triggers it whatever the confidence. -/
theorem needs_human_fallback_spec :
    (∀ (text : String) (confidence : ℚ),
      needs_human_fallback text confidence = true ↔
        ((∃ kw ∈ human_required_keywords,
            strContains (lowerStr text) (lowerStr kw) = true) ∨
          confidence < 3/10)) ∧
    (∀ (text : String) (confidence : ℚ),
      strContains (lowerStr text) (lowerStr "speak to someone") = true →
        needs_human_fallback text confidence = true) := by
  have hlow : ∀ kw ∈ human_required_keywords, lowerStr kw = kw := by decide
  constructor
  · intro text confidence
    rw [needs_human_fallback]
    simp only [Bool.or_eq_true, List.any_eq_true, decide_eq_true_eq]
    exact or_congr
      (exists_congr fun kw => and_congr_right fun hm => by rw [hlow kw hm])
      Iff.rfl
  · intro text confidence h
    rw [needs_human_fallback]
    simp only [Bool.or_eq_true, List.any_eq_true, decide_eq_true_eq]
    left
    have hk : lowerStr "speak to someone" = "speak to someone" := by decide
    exact ⟨"speak to someone", by decide, by rw [← hk]; exact h⟩

/-- C7 (witness): a concrete message containing "speak to someone"
triggers the fallback even at confidence 1. -/
theorem needs_human_fallback_spec_witness :
    strContains (lowerStr "Can I SPEAK TO someone about this")
      (lowerStr "speak to someone") = true ∧
    needs_human_fallback "Can I SPEAK TO someone about this" 1 = true :=
  ⟨by decide,
   needs_human_fallback_spec.2 "Can I SPEAK TO someone about this" 1 (by decide)⟩

/-- C3: if the guarded pipeline raises after session resolution,
`process_message` returns the canned per-language error string for the
caller-declared language with confidence 0, `fallback_required = true`
and the session id resolved at the start, and the session store is left
exactly as the pipeline had mutated it (no rollback). -/
theorem process_message_exception (env : Env) (req : ChatRequest)
    (m : ContextManager String) (now : Nat) (e : String)
    (m2 : ContextManager String)
    (h : (processInner env req (resolvedSessionId env req) now).run.run
        (afterSessionResolution env req m now) = (.error e, m2)) :
    process_message env req m now =
      (⟨errorTextFor req.language, req.language, resolvedSessionId env req,
        0, none, none, true, "error"⟩, m2) := by
  rw [process_message, h]

/-- Environment for the C3 witness: language detection raises, every
other collaborator is a benign stub. -/
def envBoom : Env :=
  ⟨"s1", fun _ => .error "boom", fun t _ => .ok (t, "en"), fun t _ => .ok t,
   fun _ => .ok ⟨none, 0, []⟩, fun _ _ => .ok ⟨false, ""⟩,
   fun _ _ => .ok ⟨[], 0⟩, fun _ => []⟩

/-- Request for the C3 witness. -/
def reqBoom : ChatRequest := ⟨"hello", .en, none⟩

/-- C3 (witness): on a concrete store, request and raising environment,
`process_message` yields the canned English error response with the
resolved session id, and the store keeps the session created at
resolution time. -/
theorem process_message_exception_witness :
    process_message envBoom reqBoom (emptyManager 1000 30) 0 =
      (⟨errorTextFor reqBoom.language, reqBoom.language,
        resolvedSessionId envBoom reqBoom, 0, none, none, true, "error"⟩,
       afterSessionResolution envBoom reqBoom (emptyManager 1000 30) 0) :=
  process_message_exception envBoom reqBoom (emptyManager 1000 30) 0 "boom"
    (afterSessionResolution envBoom reqBoom (emptyManager 1000 30) 0) rfl

/-- C6 (counterexample): the empty string contains no keyword of any
intent, yet `detect_intent` returns confidence 0.0 there, not 0.5. -/
theorem detect_intent_no_match_cex :
    (∀ p ∈ INTENT_KEYWORDS, ∀ kw ∈ p.2,
        strContains (lowerStr "") (lowerStr kw) = false) ∧
    ¬((detect_intent "").confidence = 1/2) := by
  refine ⟨by decide, ?_⟩
  have h : detect_intent "" = ⟨"general", 0, [], none⟩ := rfl
  rw [h]
  norm_num

/-- C6 (amended): for every nonempty input text in which no keyword of
any intent occurs as a case-insensitive substring, `detect_intent`
returns intent `"general"` with confidence 0.5. -/
theorem detect_intent_no_match (text : String) (h0 : ¬(text = ""))
    (h : ∀ p ∈ INTENT_KEYWORDS, ∀ kw ∈ p.2,
        strContains (lowerStr text) (lowerStr kw) = false) :
    detect_intent text = ⟨"general", 1/2, [], none⟩ := by
  have hm : intentMatches text = [] := by
    rw [intentMatches, List.filterMap_eq_nil_iff]
    intro p hp
    have hms : matchesFor p.2 text = [] := by
      rw [matchesFor, List.filter_eq_nil_iff]
      intro kw hkw
      simp [h p hp kw hkw]
    simp [hms]
  rw [detect_intent, if_neg h0, hm]

/-- C6 (witness): a concrete text matching no keyword yields the 0.5
default. -/
theorem detect_intent_no_match_witness :
    ¬(("xyzzy" : String) = "") ∧
    detect_intent "xyzzy" = ⟨"general", 1/2, [], none⟩ :=
  ⟨by decide, detect_intent_no_match "xyzzy" (by decide) (by decide)⟩

/-- C1 (counterexample): the input `"hello"` contains exactly one
greeting keyword and nothing else (its greeting matches are exactly
`["hello"]` and no competing intent matches at all), yet
`detect_intent` returns confidence 1/11, not 1.0. -/
theorem detect_intent_greeting_cex :
    matchesFor greetingKeywords "hello" = ["hello"] ∧
    (∀ p ∈ INTENT_KEYWORDS, ¬(p.1 = "greeting") → matchesFor p.2 "hello" = []) ∧
    (detect_intent "hello").intent = "greeting" ∧
    ¬((detect_intent "hello").confidence = 1) := by
  refine ⟨by decide, by decide, by decide, ?_⟩
  have h : intentMatches "hello" = [("greeting", ["hello"])] := by decide
  have hne : ¬(("hello" : String) = "") := by decide
  simp only [detect_intent, if_neg hne, h, firstMaxBy, List.foldl_nil]
  norm_num [scoreOf, priorityOf, pyMin, pyMaxN, INTENT_PRIORITY, INTENT_KEYWORDS,
    List.lookup, greetingKeywords]

/-- C1 (amended): for every nonempty text whose greeting matches are a
single keyword while no competing intent matches any keyword,
`detect_intent` returns intent `"greeting"` with that keyword as the
match and confidence 1/11 (the single-match score of the priority-1
greeting intent divided by the size of its 11-keyword list), not 1.0. -/
theorem detect_intent_single_greeting (text : String) (h0 : ¬(text = ""))
    (h1 : (matchesFor greetingKeywords text).length = 1)
    (h2 : ∀ p ∈ INTENT_KEYWORDS, ¬(p.1 = "greeting") →
        matchesFor p.2 text = []) :
    (detect_intent text).intent = "greeting" ∧
    (detect_intent text).confidence = 1/11 ∧
    (detect_intent text).matched_keywords = matchesFor greetingKeywords text := by
  obtain ⟨kw, hkw⟩ := List.length_eq_one.mp h1
  have hfee : matchesFor feeQueryKeywords text = [] :=
    h2 ("fee_query", feeQueryKeywords) (by simp [INTENT_KEYWORDS]) (by decide)
  have hadm : matchesFor admissionKeywords text = [] :=
    h2 ("admission", admissionKeywords) (by simp [INTENT_KEYWORDS]) (by decide)
  have hsch : matchesFor scholarshipKeywords text = [] :=
    h2 ("scholarship", scholarshipKeywords) (by simp [INTENT_KEYWORDS]) (by decide)
  have htim : matchesFor timetableKeywords text = [] :=
    h2 ("timetable", timetableKeywords) (by simp [INTENT_KEYWORDS]) (by decide)
  have hexm : matchesFor examKeywords text = [] :=
    h2 ("exam", examKeywords) (by simp [INTENT_KEYWORDS]) (by decide)
  have hdoc : matchesFor documentKeywords text = [] :=
    h2 ("document", documentKeywords) (by simp [INTENT_KEYWORDS]) (by decide)
  have hcon : matchesFor contactKeywords text = [] :=
    h2 ("contact", contactKeywords) (by simp [INTENT_KEYWORDS]) (by decide)
  have hhos : matchesFor hostelKeywords text = [] :=
    h2 ("hostel", hostelKeywords) (by simp [INTENT_KEYWORDS]) (by decide)
  have hlib : matchesFor libraryKeywords text = [] :=
    h2 ("library", libraryKeywords) (by simp [INTENT_KEYWORDS]) (by decide)
  have hbye : matchesFor goodbyeKeywords text = [] :=
    h2 ("goodbye", goodbyeKeywords) (by simp [INTENT_KEYWORDS]) (by decide)
  have hm : intentMatches text = [("greeting", [kw])] := by
    rw [intentMatches, INTENT_KEYWORDS]
    simp only [List.filterMap_cons, List.filterMap_nil, hkw, hfee, hadm, hsch,
      htim, hexm, hdoc, hcon, hhos, hlib, hbye, List.isEmpty_nil,
      List.isEmpty_cons]
    rfl
  have hlk : ((INTENT_KEYWORDS.lookup "greeting").getD []).length = 11 := by
    decide
  rw [detect_intent, if_neg h0, hm]
  simp only [firstMaxBy, List.foldl_nil, hkw]
  refine ⟨trivial, ?_, trivial⟩
  simp only [scoreOf, priorityOf, pyMin, pyMaxN, hlk]
  norm_num [INTENT_PRIORITY, List.lookup]

/-- C1 (witness): the amended claim evaluated at the concrete text
`"hello"`. -/
theorem detect_intent_single_greeting_witness :
    ¬(("hello" : String) = "") ∧
    (matchesFor greetingKeywords "hello").length = 1 ∧
    ((detect_intent "hello").intent = "greeting" ∧
     (detect_intent "hello").confidence = 1/11 ∧
     (detect_intent "hello").matched_keywords =
       matchesFor greetingKeywords "hello") :=
  ⟨by decide, by decide,
   detect_intent_single_greeting "hello" (by decide) (by decide) (by decide)⟩

/-! ## Claim C9: the bounded-length and timestamp invariants -/

/-- One context mutation, as named in the data-model invariant. -/
inductive CtxOp
  | addMessage (role content : String) (language : Option String)
      (metadata : Option MsgMetadata)
  | addUser (content : String) (language : Option String)
  | addAssistant (content : String) (language : Option String)
      (sources : Option (List String)) (confidence : Option ℚ)
  | updateEntities (new_entities : List (String × String))
  | addIntent (intent : String)

/-- Apply one mutation at time `now`. -/
def applyOp (ctx : ConversationContext κ) : CtxOp → Nat → ConversationContext κ
  | .addMessage r c l md, now => ctx.add_message r c l md now
  | .addUser c l, now => ctx.add_user_message c l now
  | .addAssistant c l s cf, now => ctx.add_assistant_message c l s cf now
  | .updateEntities es, now => ctx.update_entities es now
  | .addIntent i, now => ctx.add_intent i now

/-- Apply a timed sequence of mutations. -/
def applyOps (ctx : ConversationContext κ) (ops : List (CtxOp × Nat)) :
    ConversationContext κ :=
  ops.foldl (fun c p => applyOp c p.1 p.2) ctx

/-- The §3 invariant of a conversation context. -/
def CtxInv (ctx : ConversationContext κ) : Prop :=
  ctx.messages.length ≤ ctx.max_messages ∧
  ctx.intent_history.length ≤ 5 ∧
  ctx.created_at ≤ ctx.updated_at

theorem applyOp_created_at (ctx : ConversationContext κ) (op : CtxOp)
    (now : Nat) : (applyOp ctx op now).created_at = ctx.created_at := by
  cases op <;>
    simp [applyOp, ConversationContext.add_message,
      ConversationContext.add_user_message,
      ConversationContext.add_assistant_message,
      ConversationContext.update_entities, ConversationContext.add_intent]

theorem applyOp_max_messages (ctx : ConversationContext κ) (op : CtxOp)
    (now : Nat) : (applyOp ctx op now).max_messages = ctx.max_messages := by
  cases op <;>
    simp [applyOp, ConversationContext.add_message,
      ConversationContext.add_user_message,
      ConversationContext.add_assistant_message,
      ConversationContext.update_entities, ConversationContext.add_intent]

theorem pyLastSlice_length (xs : List α) (n : Nat) (h : ¬(n = 0)) :
    (pyLastSlice xs n).length = xs.length - (xs.length - n) := by
  rw [pyLastSlice, if_neg h, List.length_drop]

theorem add_message_inv (ctx : ConversationContext κ) (r c : String)
    (l : Option String) (md : Option MsgMetadata) (now : Nat)
    (hmax : 1 ≤ ctx.max_messages) (hinv : CtxInv ctx)
    (hnow : ctx.created_at ≤ now) :
    CtxInv (ctx.add_message r c l md now) := by
  obtain ⟨h1, h2, h3⟩ := hinv
  unfold CtxInv ConversationContext.add_message
  refine ⟨?_, h2, hnow⟩
  simp only
  by_cases hlen :
      (ctx.messages ++
        [Msg.mk r c (l.getD (langCode ctx.language)) now
          (md.getD ⟨[], none⟩)]).length
        > ctx.max_messages
  · rw [if_pos hlen, pyLastSlice_length _ _ (by omega)]
    omega
  · rw [if_neg hlen]
    omega

theorem applyOp_inv (ctx : ConversationContext κ) (op : CtxOp) (now : Nat)
    (hmax : 1 ≤ ctx.max_messages) (hinv : CtxInv ctx)
    (hnow : ctx.created_at ≤ now) : CtxInv (applyOp ctx op now) := by
  cases op with
  | addMessage r c l md => exact add_message_inv ctx r c l md now hmax hinv hnow
  | addUser c l =>
    exact add_message_inv ctx "user" c l none now hmax hinv hnow
  | addAssistant c l s cf =>
    exact add_message_inv ctx "assistant" c l
      (some ⟨match s with
        | some srcs => if srcs.isEmpty then [] else srcs
        | none => [], cf⟩) now hmax hinv hnow
  | updateEntities es =>
    obtain ⟨h1, h2, h3⟩ := hinv
    exact ⟨h1, h2, hnow⟩
  | addIntent i =>
    obtain ⟨h1, h2, h3⟩ := hinv
    refine ⟨h1, ?_, h3⟩
    simp only [applyOp, ConversationContext.add_intent]
    by_cases hlen : (ctx.intent_history ++ [i]).length > 5
    · rw [if_pos hlen, pyLastSlice_length _ _ (by omega)]
      omega
    · rw [if_neg hlen]
      simp only [List.length_append, List.length_cons, List.length_nil] at hlen ⊢
      omega

theorem applyOps_inv (ctx : ConversationContext κ) (l : List (CtxOp × Nat))
    (hmax : 1 ≤ ctx.max_messages) (hinv : CtxInv ctx)
    (ht : ∀ p ∈ l, ctx.created_at ≤ p.2) : CtxInv (applyOps ctx l) := by
  induction l generalizing ctx with
  | nil => exact hinv
  | cons p ps ih =>
    have hstep := applyOp_inv ctx p.1 p.2 hmax hinv (ht p (by simp))
    have hnext : CtxInv (applyOps (applyOp ctx p.1 p.2) ps) := by
      apply ih (applyOp ctx p.1 p.2) ?_ hstep ?_
      · rw [applyOp_max_messages]
        exact hmax
      · intro q hq
        rw [applyOp_created_at]
        exact ht q (List.mem_cons_of_mem _ hq)
    exact hnext

/-- C9 (counterexample): with `max_messages = 0`, Python's `xs[-0:]`
slice is the whole list, so a single `add_user_message` leaves the
message list longer than the bound and the invariant fails. -/
theorem context_invariants_cex :
    ¬ CtxInv ((newContext "s" LanguageEnum.en 0 0).add_user_message
      "hi" (some "en") 0) :=
  fun h => absurd h.1 (by decide)

/-- C9 (amended): for every context freshly constructed with
`max_messages ≥ 1` and every timed sequence of mutations performed no
earlier than the creation instant, the invariants
`messages.length ≤ max_messages`, `intent_history.length ≤ 5` and
`updated_at ≥ created_at` hold after every prefix of the sequence. -/
theorem context_invariants_hold {κ : Type} (session_id : κ)
    (language : LanguageEnum) (max_messages t0 : Nat)
    (ops : List (CtxOp × Nat)) (hmax : 1 ≤ max_messages)
    (htimes : ∀ p ∈ ops, t0 ≤ p.2) :
    ∀ pre suf, ops = pre ++ suf →
      CtxInv (applyOps (newContext session_id language max_messages t0) pre) := by
  intro pre suf heq
  apply applyOps_inv _ _ hmax
  · exact ⟨Nat.zero_le _, Nat.zero_le _, Nat.le_refl _⟩
  · intro q hq
    exact htimes q (heq ▸ List.mem_append_left suf hq)

/-- C9 (witness): the amended claim evaluated on a concrete context and
two concrete mutations. -/
theorem context_invariants_hold_witness :
    (1 : Nat) ≤ 10 ∧
    (∀ p ∈ ([(CtxOp.addIntent "greeting", 5), (CtxOp.addUser "hi" (some "en"), 6)]
        : List (CtxOp × Nat)), 3 ≤ p.2) ∧
    CtxInv (applyOps (newContext "s" LanguageEnum.en 10 3)
      [(CtxOp.addIntent "greeting", 5), (CtxOp.addUser "hi" (some "en"), 6)]) :=
  ⟨by decide, by decide,
   context_invariants_hold "s" LanguageEnum.en 10 3
     [(CtxOp.addIntent "greeting", 5), (CtxOp.addUser "hi" (some "en"), 6)]
     (by decide) (by decide)
     [(CtxOp.addIntent "greeting", 5), (CtxOp.addUser "hi" (some "en"), 6)]
     [] rfl⟩

/-! ## Claim C5: idle-session eviction -/

theorem lookupCtx_eq_none_iff [DecidableEq κ] {l : List (κ × β)} {k : κ} :
    lookupCtx l k = none ↔ ∀ p ∈ l, ¬(p.1 = k) := by
  induction l with
  | nil => simp [lookupCtx]
  | cons q qs ih =>
    by_cases hq : q.1 = k
    · simp [lookupCtx, hq]
    · simp [lookupCtx, hq, ih]

theorem mem_evictOver {l : List α} {maxN : Nat} {x : α}
    (h : x ∈ evictOver l maxN) : x ∈ l := by
  induction l with
  | nil => rw [evictOver] at h; exact h
  | cons y ys ih =>
    rw [evictOver] at h
    by_cases hlen : ys.length + 1 > maxN
    · rw [if_pos hlen] at h
      exact List.mem_cons_of_mem _ (ih h)
    · rw [if_neg hlen] at h
      exact h

theorem lookupCtx_some_unique [DecidableEq κ] {l : List (κ × β)} {k : κ}
    {v : β} (hN : (l.map Prod.fst).Nodup) (h : lookupCtx l k = some v) :
    ∀ p ∈ l, p.1 = k → p = (k, v) := by
  induction l with
  | nil => simp
  | cons q qs ih =>
    intro p hp hpk
    rw [lookupCtx] at h
    rcases List.mem_cons.mp hp with hpq | hpqs
    · subst hpq
      rw [if_pos hpk] at h
      obtain rfl := Option.some_injective _ h
      exact Prod.ext hpk rfl
    · by_cases hq : q.1 = k
      · exfalso
        rw [List.map_cons, List.nodup_cons] at hN
        exact hN.1 (hq ▸ hpk ▸ List.mem_map_of_mem Prod.fst hpqs)
      · rw [if_neg hq] at h
        exact ih (List.nodup_cons.mp (by simpa using hN)).2 h p hpqs hpk

/-- C5 (counterexample): a store holding an expired session `"a"`
(updated at 0, timeout 30, now 100) and a fresh session `"b"`; calling
`get_or_create_session` for the other session id `"b"` takes the
existing-session branch, runs no cleanup, and leaves the idle `"a"`
retrievable — refuting the claim for arbitrary other session ids. -/
def cmStale : ContextManager String :=
  ⟨[("a", newContext "a" LanguageEnum.en 10 0),
    ("b", newContext "b" LanguageEnum.en 10 100)], 1000, 30⟩

theorem idle_session_evicted_cex :
    100 - (newContext "a" LanguageEnum.en 10 0).updated_at >
      cmStale.session_timeout ∧
    ¬(get_session (get_or_create_session cmStale "b" LanguageEnum.en 100).2 "a"
      = none) := by
  refine ⟨by decide, ?_⟩
  decide

/-- C5 (amended): in a well-formed store (no duplicate session keys), a
session idle strictly longer than the timeout is removed by the next
`get_or_create_session` call for a session id *not already present*
(a creation), even when the store is below its ceiling. -/
theorem idle_session_evicted [DecidableEq κ] (m : ContextManager κ)
    (a b : κ) (ctxA : ConversationContext κ) (language : LanguageEnum)
    (now : Nat) (hN : (m.sessions.map Prod.fst).Nodup)
    (ha : lookupCtx m.sessions a = some ctxA)
    (hexp : now - ctxA.updated_at > m.session_timeout)
    (hb : lookupCtx m.sessions b = none) :
    get_session (get_or_create_session m b language now).2 a = none := by
  rw [get_or_create_session, hb]
  simp only [get_session, cleanup_old_sessions]
  rw [lookupCtx_eq_none_iff]
  intro p hp hpk
  have hmemf := mem_evictOver hp
  obtain ⟨hmem, hpred⟩ := List.mem_filter.mp hmemf
  rcases List.mem_append.mp hmem with hin | hnew
  · have hpe := lookupCtx_some_unique hN ha p hin hpk
    rw [hpe] at hpred
    simp only [decide_eq_true_eq] at hpred
    exact hpred hexp
  · have hpb : p.1 = b := by
      simp only [List.mem_singleton] at hnew
      rw [hnew]
    rw [hpb] at hpk
    rw [hpk] at hb
    rw [ha] at hb
    exact Option.noConfusion hb

/-- C5 (witness): the amended claim on a concrete store, with the
expired session `"a"` gone after creating the absent id `"c"`. -/
theorem idle_session_evicted_witness :
    (cmStale.sessions.map Prod.fst).Nodup ∧
    lookupCtx cmStale.sessions "a" = some (newContext "a" LanguageEnum.en 10 0) ∧
    100 - (newContext "a" LanguageEnum.en 10 0).updated_at >
      cmStale.session_timeout ∧
    lookupCtx cmStale.sessions "c" = none ∧
    get_session (get_or_create_session cmStale "c" LanguageEnum.en 100).2 "a"
      = none :=
  ⟨by decide, by decide, by decide, by decide,
   idle_session_evicted cmStale "a" "c" (newContext "a" LanguageEnum.en 10 0)
     LanguageEnum.en 100 (by decide) (by decide) (by decide) (by decide)⟩

/-! ## Claim C4: the store ceiling and LRU eviction -/

theorem evictOver_eq_drop (l : List α) (maxN : Nat) :
    evictOver l maxN = l.drop (l.length - maxN) := by
  induction l with
  | nil => simp [evictOver]
  | cons x xs ih =>
    rw [evictOver]
    by_cases hlen : xs.length + 1 > maxN
    · rw [if_pos hlen, ih]
      have hidx : (x :: xs).length - maxN = (xs.length - maxN) + 1 := by
        simp only [List.length_cons]
        omega
      rw [hidx, List.drop_succ_cons]
    · rw [if_neg hlen]
      have hidx : (x :: xs).length - maxN = 0 := by
        simp only [List.length_cons]
        omega
      rw [hidx, List.drop_zero]

theorem goc_max_sessions [DecidableEq κ] (m : ContextManager κ) (sid : κ)
    (language : LanguageEnum) (now : Nat) :
    ((get_or_create_session m sid language now).2).max_sessions
      = m.max_sessions := by
  rw [get_or_create_session]
  cases lookupCtx m.sessions sid <;> simp [cleanup_old_sessions]

theorem goc_timeout [DecidableEq κ] (m : ContextManager κ) (sid : κ)
    (language : LanguageEnum) (now : Nat) :
    ((get_or_create_session m sid language now).2).session_timeout
      = m.session_timeout := by
  rw [get_or_create_session]
  cases lookupCtx m.sessions sid <;> simp [cleanup_old_sessions]

theorem runCreates_max_sessions [DecidableEq κ] (m : ContextManager κ)
    (ids : List κ) (language : LanguageEnum) (now : Nat) :
    (runCreates m ids language now).max_sessions = m.max_sessions := by
  induction ids generalizing m with
  | nil => rfl
  | cons x xs ih =>
    rw [runCreates, List.foldl_cons]
    rw [show ∀ m', List.foldl
        (fun acc sid => (get_or_create_session acc sid language now).2) m' xs
        = runCreates m' xs language now from fun _ => rfl]
    rw [ih, goc_max_sessions]

theorem runCreates_timeout [DecidableEq κ] (m : ContextManager κ)
    (ids : List κ) (language : LanguageEnum) (now : Nat) :
    (runCreates m ids language now).session_timeout = m.session_timeout := by
  induction ids generalizing m with
  | nil => rfl
  | cons x xs ih =>
    rw [runCreates, List.foldl_cons]
    rw [show ∀ m', List.foldl
        (fun acc sid => (get_or_create_session acc sid language now).2) m' xs
        = runCreates m' xs language now from fun _ => rfl]
    rw [ih, goc_timeout]

theorem runCreates_append_singleton [DecidableEq κ] (m : ContextManager κ)
    (xs : List κ) (x : κ) (language : LanguageEnum) (now : Nat) :
    runCreates m (xs ++ [x]) language now =
      (get_or_create_session (runCreates m xs language now) x language now).2 := by
  simp [runCreates, List.foldl_append]

theorem lookupCtx_map_mk_none [DecidableEq κ]
    (S : List κ) (g : κ → ConversationContext κ) (k : κ) (hk : k ∉ S) :
    lookupCtx (S.map (fun i => (i, g i))) k = none := by
  rw [lookupCtx_eq_none_iff]
  intro p hp hpk
  obtain ⟨i, hi, hieq⟩ := List.mem_map.mp hp
  apply hk
  rw [← hpk, ← hieq]
  exact hi

/-- The sessions held after creating a run of fresh distinct ids at a
fixed instant, starting from an empty store: exactly the most recent
`max_sessions` of them, in order, each a fresh context. -/
theorem runCreates_sessions [DecidableEq κ] (M T now : Nat)
    (language : LanguageEnum) (ids : List κ) (h : ids.Nodup) :
    (runCreates (emptyManager M T) ids language now).sessions =
      (ids.drop (ids.length - M)).map
        (fun i => (i, newContext i language 10 now)) := by
  induction ids using List.reverseRecOn with
  | nil => simp [runCreates, emptyManager]
  | append_singleton xs x ih =>
    obtain ⟨hxs, -, hdisj⟩ := List.nodup_append.mp h
    have hx_not : x ∉ xs := fun hmem => hdisj hmem (List.mem_singleton_self x)
    have ihs := ih hxs
    rw [runCreates_append_singleton]
    rw [get_or_create_session]
    rw [ihs]
    rw [lookupCtx_map_mk_none _ _ x
      (fun hmem => hx_not (List.drop_subset _ xs hmem))]
    simp only [cleanup_old_sessions]
    rw [runCreates_max_sessions, runCreates_timeout,
      show (emptyManager M T : ContextManager κ).session_timeout = T from rfl,
      show (emptyManager M T : ContextManager κ).max_sessions = M from rfl]
    have hmap : (xs.drop (xs.length - M)).map
          (fun i => (i, newContext i language 10 now)) ++
          [(x, newContext x language 10 now)]
        = ((xs.drop (xs.length - M)) ++ [x]).map
          (fun i => (i, newContext i language 10 now)) := by
      rw [List.map_append, List.map_singleton]
    rw [hmap]
    have hfilter : (((xs.drop (xs.length - M)) ++ [x]).map
          (fun i => (i, newContext i language 10 now))).filter
          (fun p => ¬(now - p.2.updated_at > T)) =
        ((xs.drop (xs.length - M)) ++ [x]).map
          (fun i => (i, newContext i language 10 now)) := by
      apply List.filter_eq_self.mpr
      intro p hp
      obtain ⟨i, -, hieq⟩ := List.mem_map.mp hp
      rw [← hieq]
      simp [newContext]
    rw [hfilter, evictOver_eq_drop]
    have hSx : (xs.drop (xs.length - M)) ++ [x]
        = (xs ++ [x]).drop (xs.length - M) := by
      rw [List.drop_append_eq_append_drop,
        Nat.sub_eq_zero_of_le (Nat.sub_le _ _), List.drop_zero]
    rw [List.length_map, hSx, ← List.map_drop, List.drop_drop]
    have harith : (xs.length - M) +
          (((xs ++ [x]).drop (xs.length - M)).length - M)
        = (xs ++ [x]).length - M := by
      rw [List.length_drop, List.length_append, List.length_singleton]
      omega
    rw [harith]

/-- C4: starting from an empty store with ceiling 1000, creating 1001
distinct sessions sequentially with no idle time elapsing, the session
count never exceeds 1000 after any call, and the first-inserted session
id is no longer retrievable at the end. -/
theorem store_ceiling_and_first_evicted [DecidableEq κ] (ids : List κ)
    (language : LanguageEnum) (T now : Nat) (h1 : ids.Nodup)
    (h2 : ids.length = 1001) :
    (∀ pre suf, ids = pre ++ suf →
      get_session_count (runCreates (emptyManager 1000 T) pre language now)
        ≤ 1000) ∧
    (∀ h0 : ids ≠ [],
      get_session (runCreates (emptyManager 1000 T) ids language now)
        (ids.head h0) = none) := by
  constructor
  · intro pre suf heq
    have hpre : pre.Nodup := (List.nodup_append.mp (heq ▸ h1)).1
    rw [get_session_count, runCreates_sessions 1000 T now language pre hpre,
      List.length_map, List.length_drop]
    omega
  · intro h0
    rw [get_session, runCreates_sessions 1000 T now language ids h1, h2]
    obtain ⟨hd, tl, rfl⟩ := List.exists_cons_of_ne_nil h0
    have hdrop : (1001 : Nat) - 1000 = 1 := by omega
    rw [hdrop, List.drop_one, List.head_cons, List.tail_cons]
    exact lookupCtx_map_mk_none tl _ hd (List.nodup_cons.mp h1).1

/-- C4 (witness): the claim evaluated on the 1001 distinct session keys
`0, …, 1000`. -/
theorem store_ceiling_and_first_evicted_witness :
    (List.range 1001).Nodup ∧ (List.range 1001).length = 1001 ∧
    ((∀ pre suf, List.range 1001 = pre ++ suf →
      get_session_count
        (runCreates (emptyManager 1000 30) pre LanguageEnum.en 0) ≤ 1000) ∧
     (∀ h0 : List.range 1001 ≠ [],
      get_session (runCreates (emptyManager 1000 30) (List.range 1001)
        LanguageEnum.en 0) ((List.range 1001).head h0) = none)) :=
  ⟨List.nodup_range 1001, List.length_range 1001,
   store_ceiling_and_first_evicted (List.range 1001) LanguageEnum.en 30 0
     (List.nodup_range 1001) (List.length_range 1001)⟩

/-! ## Claim C8: FAQ search scoring, exclusion, ordering -/

theorem mem_insertDesc (key : α → ℚ) (x : α) (l : List α) (a : α) :
    a ∈ insertDesc key x l ↔ a = x ∨ a ∈ l := by
  induction l with
  | nil => simp [insertDesc]
  | cons y ys ih =>
    rw [insertDesc]
    by_cases h : key y ≤ key x
    · simp [if_pos h]
    · rw [if_neg h]
      simp only [List.mem_cons, ih]
      tauto

theorem insertDesc_sorted (key : α → ℚ) (x : α) (l : List α)
    (hl : l.Sorted (fun a b => key b ≤ key a)) :
    (insertDesc key x l).Sorted (fun a b => key b ≤ key a) := by
  induction l with
  | nil => simp [insertDesc]
  | cons y ys ih =>
    obtain ⟨hy, hys⟩ := List.sorted_cons.mp hl
    rw [insertDesc]
    by_cases h : key y ≤ key x
    · rw [if_pos h, List.sorted_cons]
      refine ⟨?_, hl⟩
      intro b hb
      rcases List.mem_cons.mp hb with rfl | hb'
      · exact h
      · exact le_trans (hy b hb') h
    · rw [if_neg h, List.sorted_cons]
      refine ⟨?_, ih hys⟩
      intro b hb
      rcases (mem_insertDesc key x ys b).mp hb with rfl | hb'
      · exact le_of_not_le h
      · exact hy b hb'

theorem insertDesc_perm (key : α → ℚ) (x : α) (l : List α) :
    List.Perm (insertDesc key x l) (x :: l) := by
  induction l with
  | nil => rfl
  | cons y ys ih =>
    rw [insertDesc]
    by_cases h : key y ≤ key x
    · rw [if_pos h]
    · rw [if_neg h]
      exact (ih.cons y).trans (List.Perm.swap x y ys)

theorem sortDesc_sorted (key : α → ℚ) (l : List α) :
    (sortDesc key l).Sorted (fun a b => key b ≤ key a) := by
  induction l with
  | nil => simp [sortDesc]
  | cons x xs ih => exact insertDesc_sorted key x (sortDesc key xs) ih

theorem sortDesc_perm (key : α → ℚ) (l : List α) :
    List.Perm (sortDesc key l) l := by
  induction l with
  | nil => rfl
  | cons x xs ih =>
    exact (insertDesc_perm key x (sortDesc key xs)).trans (ih.cons x)

theorem filter_insertDesc (key : α → ℚ) (c : ℚ) (x : α) (l : List α) :
    (insertDesc key x l).filter (fun a => key a = c) =
      (x :: l).filter (fun a => key a = c) := by
  induction l with
  | nil => rfl
  | cons y ys ih =>
    rw [insertDesc]
    by_cases h : key y ≤ key x
    · rw [if_pos h]
    · rw [if_neg h]
      have hxy : key x < key y := lt_of_not_le h
      by_cases hy : key y = c <;> by_cases hx : key x = c
      · exact absurd hxy (by rw [hx, hy]; exact lt_irrefl c)
      · simp [List.filter_cons, hy, hx, ih]
      · simp [List.filter_cons, hy, hx, ih]
      · simp [List.filter_cons, hy, hx, ih]

theorem sortDesc_filter (key : α → ℚ) (c : ℚ) (l : List α) :
    (sortDesc key l).filter (fun a => key a = c) =
      l.filter (fun a => key a = c) := by
  induction l with
  | nil => rfl
  | cons x xs ih =>
    rw [sortDesc, filter_insertDesc]
    by_cases hx : key x = c <;> simp [List.filter_cons, hx, ih]

/-- C8: FAQ search — candidates with empty keyword intersection are
excluded; every retained FAQ scores
`|intersection| / |query keywords| + priority × 0.1` capped at 1.0;
results are sorted descending by score with ties keeping discovery
order (the stable sort leaves each equal-score class in the unsorted
discovery order); and a query intersecting nothing yields
`{matches: [], total: 0}`. -/
theorem search_faqs_spec (faqs : List FAQ) (query : String)
    (category : Option String) (limit : Nat) :
    (∀ faq ∈ candidatesOf faqs category,
      interKeywords (queryKeywordsOf query) faq = [] →
        scoreFAQ (queryKeywordsOf query) faq = none) ∧
    (∀ faq ∈ candidatesOf faqs category,
      ¬(interKeywords (queryKeywordsOf query) faq = []) →
        scoreFAQ (queryKeywordsOf query) faq =
          some ⟨faq.question, faq.answer, faq.category.getD "general",
            pyMin (((interKeywords (queryKeywordsOf query) faq).length : ℚ) /
                (((queryKeywordsOf query).length : Nat) : ℚ) +
              faq.priority * (1/10)) 1,
            interKeywords (queryKeywordsOf query) faq⟩) ∧
    ((search_faqs faqs query category limit).«matches»).Sorted
      (fun a b => b.score ≤ a.score) ∧
    (¬(faqs = []) →
      (search_faqs faqs query category limit).«matches» =
        (sortDesc ScoredFAQ.score (scoredOf faqs query category)).take limit ∧
      (∀ c : ℚ,
        (sortDesc ScoredFAQ.score (scoredOf faqs query category)).filter
            (fun e => e.score = c) =
          (scoredOf faqs query category).filter (fun e => e.score = c)) ∧
      (search_faqs faqs query category limit).total =
        (scoredOf faqs query category).length) ∧
    ((∀ faq ∈ faqs, categoryMatches category faq = true →
        interKeywords (queryKeywordsOf query) faq = []) →
      search_faqs faqs query category limit = ⟨[], 0⟩) := by
  refine ⟨?_, ?_, ?_, ?_, ?_⟩
  · intro faq _ h
    simp [scoreFAQ, h]
  · intro faq _ h
    have hqk : ¬((queryKeywordsOf query) = []) := by
      intro hq
      exact h (by rw [interKeywords, hq, List.filter_nil])
    have hlen : 1 ≤ (queryKeywordsOf query).length :=
      List.length_pos.mpr hqk
    have hmaxn : pyMaxN (queryKeywordsOf query).length 1 =
        (queryKeywordsOf query).length := by
      rw [pyMaxN]
      by_cases h2 : (queryKeywordsOf query).length ≤ 1
      · rw [if_pos h2]
        omega
      · rw [if_neg h2]
    rw [scoreFAQ]
    rw [if_neg (fun hh => h (List.isEmpty_iff.mp hh))]
    rw [hmaxn]
  · by_cases hf : faqs = []
    · subst hf
      simp [search_faqs]
    · rw [search_faqs, if_neg (by simp [List.isEmpty_iff, hf])]
      exact (sortDesc_sorted ScoredFAQ.score _).sublist (List.take_sublist _ _)
  · intro hf
    rw [search_faqs, if_neg (by simp [List.isEmpty_iff, hf])]
    refine ⟨rfl, ?_, ?_⟩
    · intro c
      exact sortDesc_filter ScoredFAQ.score c _
    · exact (sortDesc_perm ScoredFAQ.score _).length_eq
  · intro hall
    have hscored : scoredOf faqs query category = [] := by
      rw [scoredOf, List.filterMap_eq_nil_iff]
      intro faq hfc
      obtain ⟨hmem, hcat⟩ := List.mem_filter.mp hfc
      simp [scoreFAQ, hall faq hmem hcat]
    by_cases hf : faqs = []
    · subst hf
      rfl
    · rw [search_faqs, if_neg (by simp [List.isEmpty_iff, hf])]
      rw [hscored]
      simp [sortDesc]

/-- A concrete stored FAQ for the C8 witness. -/
def faqLib : FAQ :=
  ⟨"What are the library timings", "The library is open 9 to 5",
   some "library", ["library"], 0⟩

/-- C8 (witness): a query whose keywords intersect no FAQ's keywords
returns `{matches: [], total: 0}`, via the search theorem at a concrete
FAQ list and query. -/
theorem search_faqs_spec_witness :
    search_faqs [faqLib] "quantum chromodynamics" none 5 = ⟨[], 0⟩ :=
  (search_faqs_spec [faqLib] "quantum chromodynamics" none 5).2.2.2.2
    (by decide)
